import Mathlib

set_option maxRecDepth 8000

/-!
Verification of the postgresql-ssh-mcp core against its specification.

The SQL safety validator (src/lib/sql-validator.ts), the connection
manager row-limiting logic (src/connection/postgres-pool.ts), the SSH
tunnel state machine (src/connection/ssh-tunnel.ts), the host key
verifier (src/connection/host-key-verifier.ts) and the credential
obfuscator (src/lib/obfuscate.ts) are embedded as executable Lean
functions over lists of characters, translated branch for branch from
the TypeScript source.  Strings are modelled as List Char; JavaScript
string indices become list positions; loops that advance an index
become fuelled recursions whose fuel (one plus the list length) always
exceeds the number of iterations the source loop can make, because
every iteration of each translated loop consumes at least one
character or strictly advances its index.
-/

namespace PgMcp

/-- JavaScript whitespace as used by the \s regex class and trim, restricted
to the ASCII whitespace characters that can occur in SQL text. -/
def jsWs (c : Char) : Bool :=
  c = ' ' || c = '\t' || c = '\n' || c = '\r' || c = '\x0b' || c = '\x0c'

/-- JavaScript trimStart. -/
def trimStartL (s : List Char) : List Char := s.dropWhile jsWs

/-- JavaScript trimEnd. -/
def trimEndL (s : List Char) : List Char := (s.reverse.dropWhile jsWs).reverse

/-- JavaScript trim. -/
def trimL (s : List Char) : List Char := trimEndL (trimStartL s)

/-- JavaScript toUpperCase on ASCII text. -/
def upperL (s : List Char) : List Char := s.map Char.toUpper

/-- startsWith on character lists. -/
def startsWithL (s pat : List Char) : Bool := pat.isPrefixOf s

/-- Index of the first occurrence of pat in s (JavaScript indexOf),
searching from position 0 and allowing the match to overlap any
surrounding context, exactly as String.prototype.indexOf does. -/
def findSub (pat : List Char) : List Char → Option Nat
  | [] => if pat.isEmpty then some 0 else none
  | c :: cs =>
    if pat.isPrefixOf (c :: cs) then some 0
    else (findSub pat cs).map (· + 1)

/-- JavaScript includes. -/
def containsSub (s pat : List Char) : Bool := (findSub pat s).isSome

/-- Character class [a-zA-Z0-9_] of the dollar-tag regex. -/
def tagChar (c : Char) : Bool := c.isAlpha || c.isDigit || c = '_'

/-- Helper for dollarTagAt: the run of tag characters up to a closing
dollar sign, or none when the closing dollar sign is missing. -/
def dollarMid : List Char → Option (List Char)
  | [] => none
  | c :: cs =>
    if c = '$' then some []
    else if tagChar c then (dollarMid cs).map (c :: ·)
    else none

/-- The regex match of a dollar-quote tag at the head of s
(source pattern: a dollar sign, tag characters, a dollar sign);
returns the whole matched tag including both dollar signs. -/
def dollarTagAt : List Char → Option (List Char)
  | c :: cs =>
    if c = '$' then (dollarMid cs).map (fun mid => '$' :: (mid ++ ['$']))
    else none
  | [] => none

/-! ## Tokenizer (tokenizeSimple, sql-validator.ts lines 711-806) -/

/-- The mutable state of the tokenizeSimple loop. -/
structure TokSt where
  current : List Char
  inString : Bool
  stringChar : Char
  inDollar : Bool
  dollarTag : List Char
  inLine : Bool
  inBlock : Bool

def tokStInit : TokSt :=
  { current := [], inString := false, stringChar := ' ', inDollar := false,
    dollarTag := [], inLine := false, inBlock := false }

/-- Push the pending token if it is nonempty (the if-current-push idiom of
the source). -/
def pushTok (cur : List Char) (rest : List (List Char)) : List (List Char) :=
  if cur.isEmpty then rest else cur :: rest

/-- The body of the tokenizeSimple loop; each case mirrors one branch of the
source in order, including the branches that re-fire inside comments. -/
def tokGo : Nat → TokSt → List Char → List (List Char)
  | 0, st, _ => pushTok st.current []
  | _ + 1, st, [] => pushTok st.current []
  | fuel + 1, st, c :: cs =>
    if !st.inString && !st.inDollar && !st.inBlock && c = '-' && cs.head? = some '-' then
      pushTok st.current (tokGo fuel { st with current := [], inLine := true } (cs.drop 1))
    else if st.inLine then
      tokGo fuel { st with inLine := !(c = '\n') && st.inLine } cs
    else if !st.inString && !st.inDollar && !st.inLine && c = '/' && cs.head? = some '*' then
      pushTok st.current (tokGo fuel { st with current := [], inBlock := true } (cs.drop 1))
    else if st.inBlock then
      if c = '*' && cs.head? = some '/' then
        tokGo fuel { st with inBlock := false } (cs.drop 1)
      else
        tokGo fuel st cs
    else
      match (if c = '$' && !st.inString && !st.inDollar then dollarTagAt (c :: cs) else none) with
      | some tag =>
        pushTok st.current
          (tokGo fuel { st with current := [], inDollar := true, dollarTag := tag }
            ((c :: cs).drop tag.length))
      | none =>
        if c = '$' && !st.inString && st.inDollar && startsWithL (c :: cs) st.dollarTag then
          tokGo fuel { st with inDollar := false } ((c :: cs).drop st.dollarTag.length)
        else if st.inDollar then
          tokGo fuel st cs
        else if (c = '\'' || c = '"') && !st.inString then
          pushTok st.current
            (tokGo fuel { st with current := [], inString := true, stringChar := c } cs)
        else if st.inString && c = st.stringChar then
          if cs.head? = some st.stringChar then
            tokGo fuel st (cs.drop 1)
          else
            tokGo fuel { st with inString := false } cs
        else if st.inString then
          tokGo fuel st cs
        else if jsWs c then
          pushTok st.current (tokGo fuel { st with current := [] } cs)
        else if c = '(' || c = ')' || c = ',' || c = ';' then
          pushTok st.current ([c] :: tokGo fuel { st with current := [] } cs)
        else
          tokGo fuel { st with current := st.current ++ [c] } cs

/-- tokenizeSimple from the source: comment-, string- and dollar-quote-aware
tokenization, emitting identifier-ish tokens and the single-character
punctuation tokens for parentheses, commas and semicolons. -/
def tokenizeSimple (s : List Char) : List (List Char) :=
  tokGo (s.length + 1) tokStInit s

/-- Does a token start with a letter or underscore (regex of
getFirstKeyword)? -/
def isKwStart : List Char → Bool
  | [] => false
  | c :: _ => c.isAlpha || c = '_'

/-- getFirstKeyword from the source: the first token that begins with a
letter or underscore, uppercased. -/
def getFirstKeyword (s : List Char) : Option (List Char) :=
  ((tokenizeSimple s).find? isKwStart).map upperL

/-! ## stripLeadingComments (sql-validator.ts lines 590-612) -/

/-- The loop of stripLeadingComments.  Note that for a leading block
comment the source searches for the closing star-slash with indexOf from
position 0 of the remaining text, so the closing pair may overlap the
opening slash-star (a leading slash-star-slash closes immediately); the
translation keeps that behaviour. -/
def stripGo : Nat → List Char → List Char
  | 0, s => s
  | fuel + 1, s =>
    let r := trimStartL s
    if startsWithL r ['-', '-'] then
      match findSub ['\n'] r with
      | none => []
      | some i => stripGo fuel (r.drop (i + 1))
    else if startsWithL r ['/', '*'] then
      match findSub ['*', '/'] r with
      | none => []
      | some i => stripGo fuel (r.drop (i + 2))
    else r

/-- stripLeadingComments from the source. -/
def stripLeadingComments (s : List Char) : List Char :=
  stripGo (s.length + 1) s

/-! ## containsMultipleStatements (sql-validator.ts lines 614-709) -/

/-- The scanning loop of containsMultipleStatements, returning the list of
text tails that follow each top-level semicolon (a semicolon outside
quotes, dollar quotes and comments).  The source keeps a count and the
index of the last semicolon and returns early once the count exceeds one;
collecting the tails yields the same final verdict: two or more tails is
the early-return case, and the last tail is the text after the last
semicolon.  Every comment, quote and dollar-quote branch mirrors the
source in order, including the branches that re-fire inside comments. -/
def semiGo : Nat → Bool → Bool → Bool → Bool → Bool → List Char → List Char →
    List (List Char)
  | 0, _, _, _, _, _, _, _ => []
  | _ + 1, _, _, _, _, _, _, [] => []
  | fuel + 1, sg, db, dq, ln, bk, tag, c :: cs =>
    if !sg && !db && !dq && !bk && c = '-' && cs.head? = some '-' then
      semiGo fuel sg db dq true bk tag (cs.drop 1)
    else if ln then
      semiGo fuel sg db dq (!(c = '\n') && ln) bk tag cs
    else if !sg && !db && !dq && !ln && c = '/' && cs.head? = some '*' then
      semiGo fuel sg db dq ln true tag (cs.drop 1)
    else if bk then
      if c = '*' && cs.head? = some '/' then
        semiGo fuel sg db dq ln false tag (cs.drop 1)
      else
        semiGo fuel sg db dq ln bk tag cs
    else
      match (if c = '$' && !sg && !db && !dq then dollarTagAt (c :: cs) else none) with
      | some t => semiGo fuel sg db true ln bk t ((c :: cs).drop t.length)
      | none =>
        if c = '$' && !sg && !db && dq && startsWithL (c :: cs) tag then
          semiGo fuel sg db false ln bk tag ((c :: cs).drop tag.length)
        else if dq then
          semiGo fuel sg db dq ln bk tag cs
        else if c = '\'' && !db then
          if sg && cs.head? = some '\'' then
            semiGo fuel sg db dq ln bk tag (cs.drop 1)
          else
            semiGo fuel (!sg) db dq ln bk tag cs
        else if c = '"' && !sg then
          if db && cs.head? = some '"' then
            semiGo fuel sg db dq ln bk tag (cs.drop 1)
          else
            semiGo fuel sg (!db) dq ln bk tag cs
        else if sg || db then
          semiGo fuel sg db dq ln bk tag cs
        else if c = ';' then
          cs :: semiGo fuel sg db dq ln bk tag cs
        else
          semiGo fuel sg db dq ln bk tag cs

/-- The tails after each top-level semicolon of the text. -/
def semiTails (s : List Char) : List (List Char) :=
  semiGo (s.length + 1) false false false false false [] s

/-- containsMultipleStatements from the source: more than one top-level
semicolon, or exactly one whose following text still holds something
after stripping leading comments and trimming. -/
def containsMultipleStatements (s : List Char) : Bool :=
  match semiTails s with
  | [] => false
  | [t] => !(trimL (stripLeadingComments t)).isEmpty
  | _ => true

/-! ## containsSelectInto (sql-validator.ts lines 87-104) -/

/-- The token loop of containsSelectInto; the depth is an integer because
the source counter may go below zero on unbalanced input. -/
def selIntoGo : Int → List (List Char) → Bool
  | _, [] => false
  | depth, t :: ts =>
    let u := upperL t
    let depth2 : Int :=
      if u = ['('] then depth + 1 else if u = [')'] then depth - 1 else depth
    if u = "INTO".data && depth2 = 0 then true else selIntoGo depth2 ts

/-- containsSelectInto from the source: an INTO token at parenthesis
depth zero. -/
def containsSelectInto (s : List Char) : Bool :=
  selIntoGo 0 (tokenizeSimple s)

/-! ## skipWhitespaceAndComments (sql-validator.ts lines 277-314) -/

/-- skipWhitespaceAndComments: advance an index over whitespace, line
comments and block comments.  For a line comment the source steps past
the newline; for a block comment it scans forward from two past the
opener and, when no closer exists, stops at one before the end of the
text (the source while-loop bound), resuming the outer loop there. -/
def skipWCGo (s : List Char) : Nat → Nat → Nat
  | 0, i => i
  | fuel + 1, i =>
    match s.drop i with
    | [] => i
    | c :: cs =>
      if jsWs c then skipWCGo s fuel (i + 1)
      else if c = '-' && cs.head? = some '-' then
        match findSub ['\n'] (s.drop (i + 2)) with
        | none => s.length
        | some k => skipWCGo s fuel (i + 2 + k + 1)
      else if c = '/' && cs.head? = some '*' then
        match findSub ['*', '/'] (s.drop (i + 2)) with
        | none => skipWCGo s fuel (max (i + 2) (s.length - 1))
        | some k => skipWCGo s fuel (i + 2 + k + 2)
      else i

def skipWhitespaceAndComments (s : List Char) (start : Nat) : Nat :=
  skipWCGo s (s.length + 2) start

/-! ## extractParenthesizedContent (sql-validator.ts lines 366-469) -/

/-- The scanning loop of extractParenthesizedContent: starting just after
an opening parenthesis with depth one, advance the index through
comments, quotes and dollar quotes, counting parentheses, until the
depth returns to zero or the text ends; returns the final index and
depth. -/
def epcGo (s : List Char) : Nat → Nat → Nat → Bool → Bool → Bool → Bool → Bool →
    List Char → Nat × Nat
  | 0, i, depth, _, _, _, _, _, _ => (i, depth)
  | fuel + 1, i, depth, sg, db, dq, ln, bk, tag =>
    if depth = 0 then (i, depth)
    else
      match s.drop i with
      | [] => (i, depth)
      | c :: cs =>
        if !sg && !db && !dq && !bk && c = '-' && cs.head? = some '-' then
          epcGo s fuel (i + 2) depth sg db dq true bk tag
        else if ln then
          epcGo s fuel (i + 1) depth sg db dq (!(c = '\n') && ln) bk tag
        else if !sg && !db && !dq && c = '/' && cs.head? = some '*' then
          epcGo s fuel (i + 2) depth sg db dq ln true tag
        else if bk then
          if c = '*' && cs.head? = some '/' then
            epcGo s fuel (i + 2) depth sg db dq ln false tag
          else
            epcGo s fuel (i + 1) depth sg db dq ln bk tag
        else
          match (if c = '$' && !sg && !db && !dq then dollarTagAt (c :: cs) else none) with
          | some t => epcGo s fuel (i + t.length) depth sg db true ln bk t
          | none =>
            if c = '$' && !sg && !db && dq && startsWithL (c :: cs) tag then
              epcGo s fuel (i + tag.length) depth sg db false ln bk tag
            else if dq then
              epcGo s fuel (i + 1) depth sg db dq ln bk tag
            else if c = '\'' && !db then
              if sg && cs.head? = some '\'' then
                epcGo s fuel (i + 2) depth sg db dq ln bk tag
              else
                epcGo s fuel (i + 1) depth (!sg) db dq ln bk tag
            else if c = '"' && !sg then
              if db && cs.head? = some '"' then
                epcGo s fuel (i + 2) depth sg db dq ln bk tag
              else
                epcGo s fuel (i + 1) depth sg (!db) dq ln bk tag
            else if sg || db then
              epcGo s fuel (i + 1) depth sg db dq ln bk tag
            else if c = '(' then
              epcGo s fuel (i + 1) (depth + 1) sg db dq ln bk tag
            else if c = ')' then
              epcGo s fuel (i + 1) (depth - 1) sg db dq ln bk tag
            else
              epcGo s fuel (i + 1) depth sg db dq ln bk tag

/-- extractParenthesizedContent from the source: the text between a
balanced pair of parentheses, or none when the parenthesis at the given
index is missing or never closed. -/
def extractParenthesizedContent (s : List Char) (openIdx : Nat) :
    Option (List Char) :=
  if s.get? openIdx = some '(' then
    let r := epcGo s (s.length + 2) (openIdx + 1) 1 false false false false false []
    if r.2 = 0 then some ((s.drop (openIdx + 1)).take (r.1 - 1 - (openIdx + 1)))
    else none
  else none

/-! ## cteContainsDML (sql-validator.ts lines 316-364) -/

/-- Is a character in the class [A-Z0-9_] that the source tests around a
candidate AS keyword of the uppercased text? -/
def idChar (c : Char) : Bool := c.isUpper || c.isDigit || c = '_'

/-- The DML keywords searched inside CTE bodies. -/
def dmlKeywords : List (List Char) :=
  ["INSERT".data, "UPDATE".data, "DELETE".data, "MERGE".data]

/-- The search loop of cteContainsDML over occurrences of AS, mirroring
the source: find the next AS in the uppercased text, require it to be a
standalone word, skip whitespace and comments, extract the parenthesized
body and scan its tokens for DML keywords. -/
def cteGo (s upper : List Char) : Nat → Nat → Bool
  | 0, _ => false
  | fuel + 1, searchStart =>
    match findSub "AS".data (upper.drop searchStart) with
    | none => false
    | some k =>
      let asIndex := searchStart + k
      let charBefore := if asIndex > 0 then (upper.get? (asIndex - 1)).getD ' ' else ' '
      let charAfter := (upper.get? (asIndex + 2)).getD ' '
      if idChar charBefore || idChar charAfter then
        cteGo s upper fuel (asIndex + 2)
      else
        let parenStart := skipWhitespaceAndComments s (asIndex + 2)
        if parenStart ≥ s.length || !(s.get? parenStart = some '(') then
          cteGo s upper fuel (if parenStart > asIndex + 2 then parenStart else asIndex + 2)
        else
          match extractParenthesizedContent s parenStart with
          | none => cteGo s upper fuel (parenStart + 1)
          | some body =>
            let strippedBody := upperL (trimL (stripLeadingComments body))
            if (tokenizeSimple strippedBody).any
                (fun t => dmlKeywords.contains (upperL t)) then
              true
            else
              cteGo s upper fuel (parenStart + body.length + 2)

/-- cteContainsDML from the source. -/
def cteContainsDML (s : List Char) : Bool :=
  cteGo s (upperL s) (s.length + 2) 0

/-! ## extractFinalStatementAfterCTEs (sql-validator.ts lines 471-588) -/

/-- Skip whitespace while advancing an index (the inner while loops of
the lookahead in extractFinalStatementAfterCTEs). -/
def wsSkipFrom (s : List Char) (j : Nat) : Nat :=
  j + ((s.drop j).takeWhile jsWs).length

/-- The lookahead of extractFinalStatementAfterCTEs after a top-level
closing parenthesis: skip whitespace, then repeatedly skip a line or
block comment followed by whitespace.  As in the source, the search for
a block-comment closer uses indexOf from the opener itself, so the
closing pair may overlap the opener. -/
def jScan (s : List Char) : Nat → Nat → Nat
  | 0, j => j
  | fuel + 1, j =>
    let j1 := wsSkipFrom s j
    if startsWithL (s.drop j1) ['-', '-'] then
      match findSub ['\n'] (s.drop j1) with
      | none => jScan s fuel s.length
      | some nl => jScan s fuel (j1 + nl + 1)
    else if startsWithL (s.drop j1) ['/', '*'] then
      match findSub ['*', '/'] (s.drop j1) with
      | none => jScan s fuel s.length
      | some e => jScan s fuel (j1 + e + 2)
    else j1

/-- The character loop of extractFinalStatementAfterCTEs, beginning just
after the WITH keyword: track quote, dollar-quote and comment states and
an integer parenthesis depth; whenever the depth returns to zero at a
closing parenthesis, look ahead over whitespace and comments, and if the
next character exists and is not a comma, return the text from there.
Otherwise remember the close position and continue; at the end return
the text after the last remembered close, if any. -/
def efGo (s : List Char) : Nat → Nat → Int → Option Nat → Bool → Bool → Bool →
    Bool → Bool → List Char → Option (List Char)
  | 0, _, _, lastEnd, _, _, _, _, _, _ =>
    lastEnd.map (fun j => s.drop (j + 1))
  | fuel + 1, i, depth, lastEnd, sg, db, dq, ln, bk, tag =>
    match s.drop i with
    | [] => lastEnd.map (fun j => s.drop (j + 1))
    | c :: cs =>
      if !sg && !db && !dq && !bk && c = '-' && cs.head? = some '-' then
        efGo s fuel (i + 2) depth lastEnd sg db dq true bk tag
      else if ln then
        efGo s fuel (i + 1) depth lastEnd sg db dq (!(c = '\n') && ln) bk tag
      else if !sg && !db && !dq && c = '/' && cs.head? = some '*' then
        efGo s fuel (i + 2) depth lastEnd sg db dq ln true tag
      else if bk then
        if c = '*' && cs.head? = some '/' then
          efGo s fuel (i + 2) depth lastEnd sg db dq ln false tag
        else
          efGo s fuel (i + 1) depth lastEnd sg db dq ln bk tag
      else
        match (if c = '$' && !sg && !db && !dq then dollarTagAt (c :: cs) else none) with
        | some t => efGo s fuel (i + t.length) depth lastEnd sg db true ln bk t
        | none =>
          if dq && startsWithL (c :: cs) tag then
            efGo s fuel (i + tag.length) depth lastEnd sg db false ln bk tag
          else if dq then
            efGo s fuel (i + 1) depth lastEnd sg db dq ln bk tag
          else if c = '\'' && !db then
            if sg && cs.head? = some '\'' then
              efGo s fuel (i + 2) depth lastEnd sg db dq ln bk tag
            else
              efGo s fuel (i + 1) depth lastEnd (!sg) db dq ln bk tag
          else if c = '"' && !sg then
            if db && cs.head? = some '"' then
              efGo s fuel (i + 2) depth lastEnd sg db dq ln bk tag
            else
              efGo s fuel (i + 1) depth lastEnd sg (!db) dq ln bk tag
          else if sg || db then
            efGo s fuel (i + 1) depth lastEnd sg db dq ln bk tag
          else if c = '(' then
            efGo s fuel (i + 1) (depth + 1) lastEnd sg db dq ln bk tag
          else if c = ')' then
            if depth - 1 = 0 then
              let j := jScan s (s.length + 2) (i + 1)
              if j < s.length && !(s.get? j = some ',') then
                some (s.drop j)
              else
                efGo s fuel (i + 1) (depth - 1) (some i) sg db dq ln bk tag
            else
              efGo s fuel (i + 1) (depth - 1) lastEnd sg db dq ln bk tag
          else
            efGo s fuel (i + 1) depth lastEnd sg db dq ln bk tag

/-- extractFinalStatementAfterCTEs from the source: find WITH in the
uppercased text and run the loop from four characters past it. -/
def extractFinalStatementAfterCTEs (s : List Char) : Option (List Char) :=
  match findSub "WITH".data (upperL s) with
  | none => none
  | some w =>
    efGo s (s.length + 2) (w + 4) 0 none false false false false false []

/-! ## validateWithStatement (sql-validator.ts lines 248-275) -/

/-- The prefix test validateWithStatement applies to the normalized final
statement: SELECT followed by space, newline or tab, TABLE followed by a
space, or VALUES followed by a space or an opening parenthesis. -/
def finalStartAllowed (n : List Char) : Bool :=
  startsWithL n "SELECT ".data || startsWithL n ("SELECT".data ++ ['\n']) ||
  startsWithL n ("SELECT".data ++ ['\t']) || startsWithL n "TABLE ".data ||
  startsWithL n "VALUES ".data || startsWithL n "VALUES(".data

/-- validateWithStatement from the source.  An empty extracted final
statement is falsy in the source and rejected like a missing one. -/
def validateWithStatement (s : List Char) : Bool :=
  if cteContainsDML s then false
  else
    match extractFinalStatementAfterCTEs s with
    | none => false
    | some fin =>
      if fin.isEmpty then false
      else
        let n := upperL (trimL (stripLeadingComments fin))
        if !finalStartAllowed n then false
        else if startsWithL n "SELECT".data then !containsSelectInto fin
        else true

/-! ## validateExplainStatement (sql-validator.ts lines 106-246) -/

/-- The option keywords skipped between EXPLAIN and the inner statement. -/
def explainSkipKeywords : List (List Char) :=
  ["VERBOSE".data, "COSTS".data, "SETTINGS".data, "BUFFERS".data,
   "WAL".data, "TIMING".data, "SUMMARY".data, "FORMAT".data]

/-- The format type keywords skipped after FORMAT. -/
def explainFormatTypes : List (List Char) :=
  ["TEXT".data, "JSON".data, "XML".data, "YAML".data]

/-- One keyword step of the option-skipping loop: drop the keyword when
the text starts with it followed by one of the given delimiters, then
strip comments and trim, and record that something changed. -/
def skipKw (delims : List Char) (kw : List Char) :
    List Char × Bool → List Char × Bool
  | (r, changed) =>
    if delims.any (fun d => startsWithL r (kw ++ [d])) then
      (trimL (stripLeadingComments (r.drop kw.length)), true)
    else (r, changed)

/-- One pass of the option-skipping while loop: strip and trim, then try
each skip keyword (delimited by space, newline or tab) and each format
type (also delimited by a closing parenthesis) in source order. -/
def explainSkipPass (r : List Char) : List Char × Bool :=
  let r1 := trimL (stripLeadingComments r)
  let step1 := explainSkipKeywords.foldl
    (fun acc kw => skipKw [' ', '\n', '\t'] kw acc) (r1, false)
  explainFormatTypes.foldl
    (fun acc ft => skipKw [' ', '\n', '\t', ')'] ft acc) step1

/-- The option-skipping while loop, iterated until a pass changes
nothing. -/
def explainSkipLoop : Nat → List Char → List Char
  | 0, r => r
  | fuel + 1, r =>
    let p := explainSkipPass r
    if p.2 then explainSkipLoop fuel p.1 else p.1

/-- The analysis phase of validateExplainStatement: uppercase, drop the
EXPLAIN keyword, consume a parenthesized option list and a bare ANALYZE
keyword, then skip the formatting options; yields the inner statement
(uppercased) and whether ANALYZE was seen. -/
def explainInner (s : List Char) : List Char × Bool :=
  let normalized := upperL (trimL (stripLeadingComments s))
  let r0 := trimL (stripLeadingComments (normalized.drop 7))
  let afterParen : List Char × Bool :=
    if startsWithL r0 ['('] then
      match findSub [')'] r0 with
      | some ci =>
        if ci > 0 then
          let options := (r0.drop 1).take (ci - 1)
          (trimL (stripLeadingComments (r0.drop (ci + 1))),
           containsSub options "ANALYZE".data)
        else (r0, false)
      | none => (r0, false)
    else (r0, false)
  let r1 := afterParen.1
  let afterBare : List Char × Bool :=
    if startsWithL r1 "ANALYZE ".data || startsWithL r1 ("ANALYZE".data ++ ['\n']) ||
        startsWithL r1 ("ANALYZE".data ++ ['\t']) then
      (trimL (stripLeadingComments (r1.drop 7)), true)
    else (r1, afterParen.2)
  (explainSkipLoop (afterBare.1.length + 1) afterBare.1, afterBare.2)

/-- The keyword block list READ_ONLY_BLOCKED_KEYWORDS of the source. -/
def readOnlyBlockedKeywords : List (List Char) :=
  ["COPY".data, "TRUNCATE".data, "LOCK".data, "GRANT".data,
   "REVOKE".data, "PREPARE".data, "EXECUTE".data]

def msgAnalyzeDml : String :=
  "EXPLAIN ANALYZE not allowed for INSERT/UPDATE/DELETE/MERGE in read-only mode. ANALYZE actually executes the statement! Use EXPLAIN without ANALYZE."

def msgCteParse : String :=
  "EXPLAIN ANALYZE WITH ... must end with SELECT. Could not parse CTE structure."

def msgFoundHead : String :=
  "EXPLAIN ANALYZE WITH ... must end with SELECT. ANALYZE on WITH...INSERT/UPDATE/DELETE will execute the statement! Found final statement starting with: "

def msgDmlCte : String :=
  "EXPLAIN ANALYZE not allowed on data-modifying CTEs. CTEs containing INSERT/UPDATE/DELETE will execute when using ANALYZE."

/-- The first six safe-for-ANALYZE prefixes of the source condition: the
SELECT, TABLE and VALUES forms. -/
def stvStart (ni : List Char) : Bool :=
  startsWithL ni "SELECT ".data || startsWithL ni ("SELECT".data ++ ['\n']) ||
  startsWithL ni ("SELECT".data ++ ['\t']) || startsWithL ni "TABLE ".data ||
  startsWithL ni "VALUES ".data || startsWithL ni "VALUES(".data

/-- The last two safe-for-ANALYZE prefixes of the source condition: the
WITH forms.  The source re-tests exactly these two prefixes to enter the
CTE checks. -/
def withStart (ni : List Char) : Bool :=
  startsWithL ni "WITH ".data || startsWithL ni ("WITH".data ++ ['\n'])

/-- The final-statement checks of the ANALYZE phase for a WITH inner
statement (source lines 211-235): the normalized final statement must
begin with an allowed keyword and the CTE bodies must be DML-free. -/
def explainFinalCheck (inner fin : List Char) : Except String Unit :=
  if !finalStartAllowed (upperL (trimL (stripLeadingComments fin))) then
    Except.error (msgFoundHead ++
      String.mk ((upperL (trimL (stripLeadingComments fin))).take 30) ++ "...")
  else if cteContainsDML inner then Except.error msgDmlCte
  else Except.ok ()

/-- The ANALYZE phase of validateExplainStatement (source lines 182-236):
reject unless the inner statement starts safely; for a WITH inner
statement also require a parsable CTE structure, an allowed final
statement and DML-free CTE bodies. -/
def explainAnalyzeCheck (inner : List Char) : Except String Unit :=
  if !(stvStart (upperL (trimL (stripLeadingComments inner))) ||
       withStart (upperL (trimL (stripLeadingComments inner)))) then
    Except.error msgAnalyzeDml
  else if withStart (upperL (trimL (stripLeadingComments inner))) then
    match extractFinalStatementAfterCTEs inner with
    | none => Except.error msgCteParse
    | some fin => explainFinalCheck inner fin
  else Except.ok ()

/-- The trailing CALL and DO prefix checks of validateExplainStatement
(source lines 238-245). -/
def explainCallDoCheck (inner : List Char) : Except String Unit :=
  if startsWithL inner "CALL ".data then
    Except.error "EXPLAIN of CALL not allowed in read-only mode."
  else if startsWithL inner "DO ".data then
    Except.error "EXPLAIN of DO not allowed in read-only mode."
  else Except.ok ()

/-- The phases of validateExplainStatement that follow the blocked-keyword
check: the ANALYZE phase when ANALYZE was seen, then the CALL and DO
prefix checks. -/
def explainAfterKeywordCheck (inner : List Char) (hasAnalyze : Bool) :
    Except String Unit :=
  match (if hasAnalyze then explainAnalyzeCheck inner else Except.ok ()) with
  | Except.error e => Except.error e
  | Except.ok _ => explainCallDoCheck inner

/-- validateExplainStatement from the source, with the inner statement and
the ANALYZE flag computed by explainInner.  Throwing becomes returning
the error message; the sequential throws become a match on each phase. -/
def validateExplainStatement (s : List Char) : Except String Unit :=
  match getFirstKeyword (explainInner s).1 with
  | some kw =>
    if readOnlyBlockedKeywords.contains kw then
      Except.error ("EXPLAIN of " ++ String.mk kw ++ " not allowed in read-only mode.")
    else explainAfterKeywordCheck (explainInner s).1 (explainInner s).2
  | none => explainAfterKeywordCheck (explainInner s).1 (explainInner s).2

/-! ## validateReadOnlyStatement (sql-validator.ts lines 11-85) -/

def msgMulti : String :=
  "Multiple statements not allowed. Submit one statement at a time."

def msgEmpty : String := "Empty SQL statement."

def msgCall : String :=
  "CALL statements not allowed in read-only mode (procedures may modify data)."

def msgDo : String :=
  "DO statements not allowed in read-only mode (anonymous blocks may modify data)."

def msgSelectInto : String :=
  "SELECT INTO not allowed in read-only mode (creates tables). Use SELECT without INTO."

def msgWith : String :=
  "WITH statements only allowed when final statement is SELECT. WITH ... INSERT/UPDATE/DELETE/MERGE not permitted in read-only mode."

def msgFallthroughHead : String :=
  "Statement type not allowed in read-only mode. Allowed: SELECT, EXPLAIN (without ANALYZE on DML), SHOW, VALUES, TABLE, WITH...SELECT. Received: "

/-- The first-keyword dispatch of validateReadOnlyStatement, applied to the
comment-stripped text and its normalized (trimmed, uppercased) form. -/
def dispatchReadOnly (stripped normalized : List Char) : Except String Unit :=
  match getFirstKeyword stripped with
  | none => Except.error msgEmpty
  | some kw =>
    if readOnlyBlockedKeywords.contains kw then
      Except.error (String.mk kw ++ " statements are not allowed in read-only mode.")
    else if kw = "CALL".data then Except.error msgCall
    else if kw = "DO".data then Except.error msgDo
    else if kw = "SELECT".data then
      if containsSelectInto stripped then Except.error msgSelectInto else Except.ok ()
    else if kw = "EXPLAIN".data then validateExplainStatement stripped
    else if kw = "SHOW".data then Except.ok ()
    else if kw = "VALUES".data then Except.ok ()
    else if kw = "TABLE".data then Except.ok ()
    else if kw = "WITH".data then
      if validateWithStatement stripped then Except.ok () else Except.error msgWith
    else
      Except.error (msgFallthroughHead ++ String.mk (normalized.take 50) ++ "...")

/-- validateReadOnlyStatement from the source: the multi-statement check,
then dispatch on the first keyword of the comment-stripped text. -/
def validateReadOnlyStatement (s : List Char) : Except String Unit :=
  if containsMultipleStatements s then Except.error msgMulti
  else
    dispatchReadOnly (stripLeadingComments s)
      (upperL (trimL (stripLeadingComments s)))

/-! ## Connection manager row limiting (postgres-pool.ts lines 215-387)

The driver is abstracted: a direct query returns a DriverResult (the rows
the pg driver hands back and its rowCount field), and the cursor path
draws from the list of rows the statement can produce, of which FETCH n
returns the first n.  Rows are an arbitrary type. -/

/-- The result envelope, QueryResultWithMeta of the source restricted to
the fields the claims speak about (fields and command are carried through
from the driver unchanged by every path). -/
structure QueryEnvelope (ρ : Type) where
  rows : List ρ
  rowCount : Nat
  truncated : Bool
  deriving DecidableEq

/-- What the driver returns for a direct (non-cursor) execution. -/
structure DriverResult (ρ : Type) where
  rows : List ρ
  rowCount : Nat
  deriving DecidableEq

/-- shouldUseCursorLimiting from the source: SELECT, TABLE and VALUES are
cursor-eligible; WITH is eligible unless a CTE holds DML or the extracted
final statement starts with a DML keyword; everything else is not.  An
empty extracted final statement is falsy in the source and skips the
final-statement test. -/
def shouldUseCursorLimiting (s : List Char) : Bool :=
  match getFirstKeyword s with
  | none => false
  | some kw =>
    if kw = "WITH".data then
      if cteContainsDML s then false
      else
        match extractFinalStatementAfterCTEs s with
        | some fin =>
          if fin.isEmpty then true
          else
            let nf := upperL (trimL (stripLeadingComments fin))
            if startsWithL nf "INSERT ".data || startsWithL nf "UPDATE ".data ||
                startsWithL nf "DELETE ".data || startsWithL nf "MERGE ".data then
              false
            else true
        | none => true
    else if kw = "SELECT".data || kw = "TABLE".data || kw = "VALUES".data then true
    else false

/-- executeQueryWithLimit from the source: DECLARE a cursor, FETCH
maxRows plus one rows, report truncation when more than maxRows arrived,
keep only the first maxRows rows, and report the kept length as
rowCount. -/
def executeQueryWithLimit {ρ : Type} (avail : List ρ) (maxRows : Nat) :
    QueryEnvelope ρ :=
  let fetched := avail.take (maxRows + 1)
  let truncated := decide (maxRows < fetched.length)
  let rows := if maxRows < fetched.length then fetched.take maxRows else fetched
  { rows := rows, rowCount := rows.length, truncated := truncated }

/-- The direct branch of executeReadOnlyQuery: the driver result is passed
through with truncated hard-coded to false. -/
def directReadOnlyEnvelope {ρ : Type} (r : DriverResult ρ) : QueryEnvelope ρ :=
  { rows := r.rows, rowCount := r.rowCount, truncated := false }

/-- executeReadOnlyQuery from the source: cursor-based limiting for
cursor-eligible statements, otherwise the direct envelope. -/
def executeReadOnlyQuery {ρ : Type} (sql : List Char) (direct : DriverResult ρ)
    (avail : List ρ) (maxRows : Nat) : QueryEnvelope ρ :=
  if shouldUseCursorLimiting sql then executeQueryWithLimit avail maxRows
  else directReadOnlyEnvelope direct

/-- executeWriteQuery from the source: cursor-based limiting when
eligible; otherwise cap the driver rows at maxRows, set truncated from
the driver row count, and report the driver rowCount field unchanged. -/
def executeWriteQuery {ρ : Type} (sql : List Char) (direct : DriverResult ρ)
    (avail : List ρ) (maxRows : Nat) : QueryEnvelope ρ :=
  if shouldUseCursorLimiting sql then executeQueryWithLimit avail maxRows
  else
    let truncated := decide (maxRows < direct.rows.length)
    { rows := if maxRows < direct.rows.length then direct.rows.take maxRows
              else direct.rows,
      rowCount := direct.rowCount, truncated := truncated }

/-! ## The query concurrency gate (postgres-pool.ts lines 414-434)

acquireQuerySlot and releaseQuerySlot as a transition system.  Callers
are identified by numbers.  A caller either takes the fast path when
inFlightQueries is below the limit, incrementing at once, or pushes a
resolver into queryWaiters and suspends.  releaseQuerySlot decrements
the counter and resolves the first waiter; the woken caller increments
the counter only when its continuation runs, which is a separate step of
the event loop.  The ghost field active lists the callers that have
completed acquireQuerySlot and not yet run releaseQuerySlot - the
queries in flight past the slot-acquire step. -/

structure GateSt where
  inFlight : Nat
  waiters : List Nat
  woken : List Nat
  active : List Nat
  deriving DecidableEq

def gateInit : GateSt := { inFlight := 0, waiters := [], woken := [], active := [] }

/-- A caller id not yet known to the gate. -/
def gateFresh (s : GateSt) (id : Nat) : Prop :=
  id ∉ s.waiters ∧ id ∉ s.woken ∧ id ∉ s.active

/-- One step of the gate, as the source performs it at each suspension
point. -/
inductive GateStep (max : Nat) : GateSt → GateSt → Prop
  /-- acquireQuerySlot fast path: the counter is below the limit, the
  caller increments it and proceeds. -/
  | fastAcquire (s : GateSt) (id : Nat) (hlt : s.inFlight < max)
      (hfresh : gateFresh s id) :
      GateStep max s { s with inFlight := s.inFlight + 1, active := s.active ++ [id] }
  /-- acquireQuerySlot slow path: the counter is at the limit, the caller
  enqueues its resolver and suspends. -/
  | enqueue (s : GateSt) (id : Nat) (hge : ¬ s.inFlight < max)
      (hfresh : gateFresh s id) :
      GateStep max s { s with waiters := s.waiters ++ [id] }
  /-- releaseQuerySlot with no waiter: decrement, clamped at zero. -/
  | releaseEmpty (s : GateSt) (id : Nat) (hid : id ∈ s.active)
      (hnone : s.waiters = []) :
      GateStep max s { s with inFlight := s.inFlight - 1, active := s.active.erase id }
  /-- releaseQuerySlot with a waiter: decrement and resolve the first
  waiter, whose continuation is now scheduled but has not yet run. -/
  | releaseWake (s : GateSt) (id w : Nat) (ws : List Nat) (hid : id ∈ s.active)
      (hw : s.waiters = w :: ws) :
      GateStep max s
        { s with inFlight := s.inFlight - 1, waiters := ws,
                 woken := s.woken ++ [w], active := s.active.erase id }
  /-- The continuation of a woken waiter runs: it increments the counter
  unconditionally and proceeds past the slot-acquire step. -/
  | resume (s : GateSt) (w : Nat) (ws : List Nat) (hw : s.woken = w :: ws) :
      GateStep max s
        { s with inFlight := s.inFlight + 1, woken := ws, active := s.active ++ [w] }

/-- The states the gate can reach from the initial state. -/
inductive GateReach (max : Nat) : GateSt → Prop
  | init : GateReach max gateInit
  | step {s s' : GateSt} : GateReach max s → GateStep max s s' → GateReach max s'

/-! ## The SSH tunnel state machine (ssh-tunnel.ts)

The manager state: the status enum, the bound local port (zero when no
listener is bound, as in the source field initialisation), the
reconnect attempt counter, the configured maxReconnectAttempts (an
integer, since minus one means unlimited), the shutdown flag, and
whether a reconnect attempt is scheduled (the timer of
scheduleReconnect).  The transitions translate connect, the error and
close handlers, handleDisconnect with the inlined scheduleReconnect
entry, the post-backoff attempt (cleanup then connect), and close.  A
successfully bound listener port is nonzero, which is the only fact
assumed about the operating system. -/

inductive TStatus
  | disconnected | connecting | connected | reconnecting | failed
  deriving DecidableEq

structure TunSt where
  status : TStatus
  localPort : Nat
  reconnectAttempts : Nat
  maxAttempts : Int
  shuttingDown : Bool
  pending : Bool
  deriving DecidableEq

def tunnelInit (maxAttempts : Int) : TunSt :=
  { status := .disconnected, localPort := 0, reconnectAttempts := 0,
    maxAttempts := maxAttempts, shuttingDown := false, pending := false }

/-- getState of the source restricted to the localPort field:
this.localPort or null. -/
def getStateLocalPort (s : TunSt) : Option Nat :=
  if s.localPort ≠ 0 then some s.localPort else none

inductive TunStep : TunSt → TunSt → Prop
  /-- connect() called on a disconnected manager: clear the shutdown flag
  and enter connecting. -/
  | startConnect (s : TunSt) (h : s.status = .disconnected) (hp : s.pending = false) :
      TunStep s { s with status := .connecting, shuttingDown := false }
  /-- The ready event with the local listener bound on an ephemeral port
  p (nonzero): record the port, reset the attempt counter, enter
  connected. -/
  | connectReady (s : TunSt) (p : Nat) (h : s.status = .connecting) (hp : p ≠ 0) :
      TunStep s { s with status := .connected, localPort := p, reconnectAttempts := 0 }
  /-- The client error handler while connecting: enter failed and reject
  the connect promise.  This is the same handler for the initial connect
  and for a reconnection attempt; the catch in scheduleReconnect only
  logs, so nothing is rescheduled afterwards. -/
  | connectFail (s : TunSt) (h : s.status = .connecting) :
      TunStep s { s with status := .failed }
  /-- A post-ready error, close or end event: handleDisconnect destroys
  the forwarded sockets, enters disconnected, and calls scheduleReconnect,
  which finds the attempt budget exhausted, enters failed and emits the
  failed event.  The local port is not cleared (cleanup only runs later,
  inside an attempt). -/
  | disconnectExhausted (s : TunSt) (h : s.status = .connected)
      (hsd : s.shuttingDown = false)
      (hmax : 0 ≤ s.maxAttempts ∧ s.maxAttempts ≤ (s.reconnectAttempts : Int)) :
      TunStep s { s with status := .failed }
  /-- A post-ready error, close or end event with budget remaining:
  handleDisconnect enters disconnected, then scheduleReconnect increments
  the attempt counter, enters reconnecting and arms the backoff timer.
  The local port is not cleared. -/
  | disconnectSchedule (s : TunSt) (h : s.status = .connected)
      (hsd : s.shuttingDown = false)
      (hmax : ¬ (0 ≤ s.maxAttempts ∧ s.maxAttempts ≤ (s.reconnectAttempts : Int))) :
      TunStep s
        { s with status := .reconnecting,
                 reconnectAttempts := s.reconnectAttempts + 1, pending := true }
  /-- The backoff timer fires with no shutdown in progress: cleanup
  closes the listener and clears the local port, then connect() enters
  connecting. -/
  | attemptStart (s : TunSt) (h : s.pending = true) (hsd : s.shuttingDown = false) :
      TunStep s
        { s with status := .connecting, localPort := 0, pending := false,
                 shuttingDown := false }
  /-- close(): set the shutdown flag, destroy sockets, cleanup, enter
  disconnected. -/
  | close (s : TunSt) :
      TunStep s
        { s with status := .disconnected, localPort := 0, shuttingDown := true }

/-- The tunnel states reachable from a freshly constructed manager. -/
inductive TunReach (maxAttempts : Int) : TunSt → Prop
  | init : TunReach maxAttempts (tunnelInit maxAttempts)
  | step {s s' : TunSt} : TunReach maxAttempts s → TunStep s s' →
      TunReach maxAttempts s'

/-- No step out of a state enters the reconnecting or connecting status:
the automatic reconnection machinery is finished there for good (only a
user-level close can still move the state, to disconnected). -/
def tunnelStuck (s : TunSt) : Prop :=
  ∀ s', TunStep s s' → s'.status ≠ .reconnecting ∧ s'.status ≠ .connecting

/-! ## Host key verifier (host-key-verifier.ts)

loadKnownHosts parses the known_hosts file contents into an insertion
ordered map from normalized hostname matchers to entries; verifyHostKey
looks the presented host up and decides.  The HMAC-SHA1 used for hashed
matchers is abstracted as a function from the base64 salt and the
hostname to the base64 digest; the byte content of the presented key is
abstracted as its base64 text, which is all the comparison uses. -/

structure KnownHost where
  hostname : List Char
  keyType : List Char
  publicKey : List Char
  deriving DecidableEq

structure HostKeyVerificationResult where
  verified : Bool
  reason : List Char
  deriving DecidableEq

/-- Split on a single character, keeping empty pieces, as the JavaScript
split with a string separator does. -/
def splitOnChar (sep : Char) : List Char → List (List Char)
  | [] => [[]]
  | c :: cs =>
    let rest := splitOnChar sep cs
    if c = sep then [] :: rest
    else
      match rest with
      | [] => [[c]]
      | h :: t => (c :: h) :: t

/-- Split on runs of whitespace, as the JavaScript split on a whitespace
regex does on trimmed text: whitespace runs separate the pieces. -/
def splitWsGo : List Char → List Char → List (List Char)
  | cur, [] => if cur.isEmpty then [] else [cur.reverse]
  | cur, c :: cs =>
    if jsWs c then
      if cur.isEmpty then splitWsGo [] cs else cur.reverse :: splitWsGo [] cs
    else splitWsGo (c :: cur) cs

def splitWs (s : List Char) : List (List Char) := splitWsGo [] s

/-- Is a character a decimal digit (for the port of a bracketed
matcher)? -/
def digitsToNat (ds : List Char) : Nat :=
  ds.foldl (fun n c => n * 10 + (c.toNat - '0'.toNat)) 0

/-- normalizeHostname from the source: a bracketed host with port 22
becomes the bare host; anything else is kept verbatim.  The regex
requires an opening bracket, a nonempty bracket-free host, a closing
bracket, a colon and at least one digit running to the end. -/
def normalizeHostname (h : List Char) : List Char :=
  match h with
  | '[' :: rest =>
    match findSub [']'] rest with
    | some k =>
      if k = 0 then h
      else
        let inner := rest.take k
        let afterBracket := rest.drop (k + 1)
        match afterBracket with
        | ':' :: ds =>
          if ds ≠ [] && ds.all Char.isDigit && inner.all (fun c => c ≠ ']') then
            if digitsToNat ds = 22 then inner else h
          else h
        | _ => h
    | none => h
  | _ => h

/-- Append a known host under a map key, creating the key at the end of
the insertion order when it is new (the Map get-or-create of the
source). -/
def mapPush (m : List (List Char × List KnownHost)) (k : List Char)
    (v : KnownHost) : List (List Char × List KnownHost) :=
  match m with
  | [] => [(k, [v])]
  | (k', vs) :: rest =>
    if k' = k then (k', vs ++ [v]) :: rest else (k', vs) :: mapPush rest k v

/-- loadKnownHosts from the source: parse each nonempty line that does
not start with a hash mark or an at sign; take the first three
whitespace separated fields; split the first on commas and record one
entry per normalized hostname. -/
def loadKnownHosts (content : List Char) :
    List (List Char × List KnownHost) :=
  (splitOnChar '\n' content).foldl
    (fun m line =>
      let trimmed := trimL line
      if trimmed.isEmpty then m
      else if startsWithL trimmed ['#'] then m
      else if startsWithL trimmed ['@'] then m
      else
        match splitWs trimmed with
        | hostnames :: keyType :: publicKey :: _ =>
          (splitOnChar ',' hostnames).foldl
            (fun m' host =>
              let nh := normalizeHostname host
              mapPush m' nh { hostname := nh, keyType := keyType,
                              publicKey := publicKey })
            m
        | _ => m)
    []

/-- hostnameMatches from the source: a hashed matcher (four pipe
separated fields led by the tag 1) matches when the keyed digest of the
hostname equals the stored hash; any other matcher is compared
verbatim. -/
def hostnameMatches (hmacB64 : List Char → List Char → List Char)
    (entry hostname : List Char) : Bool :=
  if !startsWithL entry "|1|".data then entry = hostname
  else
    match splitOnChar '|' entry with
    | [_, _, salt, storedHash] => hmacB64 salt hostname = storedHash
    | _ => false

/-- findKnownKeys from the source: collect the entries of every map key
that matches the hostname, in insertion order. -/
def findKnownKeys (hmacB64 : List Char → List Char → List Char)
    (m : List (List Char × List KnownHost)) (hostname : List Char) :
    List KnownHost :=
  m.foldl (fun acc kv =>
    if hostnameMatches hmacB64 kv.1 hostname then acc ++ kv.2 else acc) []

def unknownHostReason (displayHost hostname : List Char) : List Char :=
  "UNKNOWN HOST: \x27".data ++ displayHost ++
  "\x27 not found in known_hosts.\nTo add it, run: ssh-keyscan -H ".data ++
  hostname ++ " >> ~/.ssh/known_hosts\nThen restart the MCP server.".data

def mismatchReason (displayHost keyType : List Char) : List Char :=
  "HOST KEY MISMATCH for \x27".data ++ displayHost ++
  "\x27!\nServer presented: ".data ++ keyType ++
  "\nThis could indicate a man-in-the-middle attack.".data

/-- verifyHostKey from src/connection/host-key-verifier.ts lines
110-159: look the host up (bracketed form first for a non-22 port),
report UNKNOWN HOST when nothing matches, verified when some entry
carries the same key type and base64 key, and HOST KEY MISMATCH
otherwise.  This constructor-loaded verifier takes no trust-on-first-use
flag and never writes to the file; the mismatch reason is kept up to its
man-in-the-middle line. -/
def verifyHostKey (hmacB64 : List Char → List Char → List Char)
    (m : List (List Char × List KnownHost)) (hostname : List Char)
    (port : Nat) (keyType publicKeyB64 : List Char) :
    HostKeyVerificationResult :=
  let bracketed := '[' :: hostname ++ "]:".data ++ (toString port).data
  let lookupKeys := if port = 22 then [hostname] else [bracketed, hostname]
  let knownKeys := lookupKeys.foldl
    (fun acc k => if acc.isEmpty then findKnownKeys hmacB64 m k else acc) []
  let displayHost := if port = 22 then hostname else bracketed
  if knownKeys.isEmpty then
    { verified := false, reason := unknownHostReason displayHost hostname }
  else if knownKeys.any (fun known =>
      known.keyType = keyType && known.publicKey = publicKeyB64) then
    { verified := true, reason := "Host key verified against known_hosts".data }
  else
    { verified := false, reason := mismatchReason displayHost keyType }

/-! ## Credential obfuscator (obfuscate.ts)

Each substitution is a global regex replace; the generic scanner finds
the leftmost match, emits the replacement, and continues after the match
in the original text, exactly as a global replace builds its result. -/

/-- Apply one global substitution: matchAt gives the length of a match
starting at the head of a suffix.  Every matcher below matches at least
two characters, so the fuel of one plus the length always suffices. -/
def scanReplace (matchAt : List Char → Option Nat) (repl : List Char) :
    Nat → List Char → List Char
  | 0, s => s
  | _ + 1, [] => []
  | fuel + 1, c :: cs =>
    match matchAt (c :: cs) with
    | some n => repl ++ scanReplace matchAt repl fuel ((c :: cs).drop n)
    | none => c :: scanReplace matchAt repl fuel cs

def applyPass (matchAt : List Char → Option Nat) (repl : List Char)
    (s : List Char) : List Char :=
  scanReplace matchAt repl (s.length + 1) s

/-- The URI password pattern: a colon, a nonempty greedy run of
characters other than colon, at sign and slash, then an at sign. -/
def uriPassAt : List Char → Option Nat
  | ':' :: rest =>
    let run := rest.takeWhile (fun c => !(c = ':' || c = '@' || c = '/'))
    if run.length ≥ 1 && rest.get? run.length = some '@' then
      some (1 + run.length + 1)
    else none
  | _ => none

/-- A key-value pattern: the keyword (case-insensitively), an equals
sign or colon, greedy whitespace, then a nonempty greedy run of
non-whitespace. -/
def kvMatchAt (key : List Char) (s : List Char) : Option Nat :=
  if (s.take key.length).map Char.toLower = key then
    match s.get? key.length with
    | some sep =>
      if sep = '=' || sep = ':' then
        let after := s.drop (key.length + 1)
        let wsRun := after.takeWhile jsWs
        let value := (after.drop wsRun.length).takeWhile (fun c => !jsWs c)
        if value.length ≥ 1 then
          some (key.length + 1 + wsRun.length + value.length)
        else none
      else none
    | none => none
  else none

/-- The api key pattern: api, an optional underscore or hyphen, key,
then the key-value tail. -/
def apiKeyAt (s : List Char) : Option Nat :=
  if (s.take 3).map Char.toLower = "api".data then
    let trySep :=
      match s.get? 3 with
      | some c =>
        if (c = '_' || c = '-') &&
            ((s.drop 4).take 3).map Char.toLower = "key".data then
          some 7
        else none
      | none => none
    let base? :=
      match trySep with
      | some b => some b
      | none =>
        if ((s.drop 3).take 3).map Char.toLower = "key".data then some 6
        else none
    match base? with
    | some base =>
      match s.get? base with
      | some sep =>
        if sep = '=' || sep = ':' then
          let after := s.drop (base + 1)
          let wsRun := after.takeWhile jsWs
          let value := (after.drop wsRun.length).takeWhile (fun c => !jsWs c)
          if value.length ≥ 1 then some (base + 1 + wsRun.length + value.length)
          else none
        else none
      | none => none
    | none => none
  else none

/-- obfuscateConnectionString from the source: the nine global
substitutions in order. -/
def obfuscateConnectionString (s : List Char) : List Char :=
  let p1 := applyPass uriPassAt ":****@".data s
  let p2 := applyPass (kvMatchAt "password".data) "password=****".data p1
  let p3 := applyPass (kvMatchAt "privatekey".data) "privateKey=****".data p2
  let p4 := applyPass (kvMatchAt "privatekey".data) "privateKey=****".data p3
  let p5 := applyPass (kvMatchAt "passphrase".data) "passphrase=****".data p4
  let p6 := applyPass (kvMatchAt "secret".data) "secret=****".data p5
  let p7 := applyPass (kvMatchAt "token".data) "token=****".data p6
  let p8 := applyPass apiKeyAt "apiKey=****".data p7
  applyPass (kvMatchAt "authorization".data) "authorization=****".data p8

/-! ## Claim-side predicates

These definitions follow the wording of the specification claims, for
comparison with the functions translated from the source. -/

/-- Does the text, read from a clean state, contain a character that is
neither whitespace nor inside a comment?  Comments are parsed in the
standard way: a line comment runs to the newline, and the closing pair
of a block comment is searched strictly after its opener, so it cannot
overlap it.  A character inside quotes counts as visible, since it is
not a comment character.  Used to state what follows a top-level
semicolon in the multiple-statement claim. -/
def visGo : Nat → List Char → Bool
  | 0, _ => false
  | _ + 1, [] => false
  | fuel + 1, c :: cs =>
    if c = '-' && cs.head? = some '-' then
      match findSub ['\n'] (cs.drop 1) with
      | none => false
      | some k => visGo fuel ((cs.drop 1).drop (k + 1))
    else if c = '/' && cs.head? = some '*' then
      match findSub "*/".data (cs.drop 1) with
      | none => false
      | some k => visGo fuel ((cs.drop 1).drop (k + 2))
    else if jsWs c then visGo fuel cs
    else true

def visibleExists (s : List Char) : Bool := visGo (s.length + 1) s

/-- The claim's acceptance condition for a WITH statement: no CTE body
holds a DML token (outside strings, comments and dollar quotes, which is
what cteContainsDML scans for), the final statement after the last
top-level CTE parenthesis exists and begins with SELECT, TABLE or
VALUES, and a final SELECT holds no INTO token at depth zero. -/
def withClaimOK (s : List Char) : Bool :=
  !cteContainsDML s &&
  (match extractFinalStatementAfterCTEs s with
   | none => false
   | some fin =>
     let n := upperL (trimL (stripLeadingComments fin))
     finalStartAllowed n &&
     (!startsWithL n "SELECT".data || !containsSelectInto fin))

/-- The claim-side safety condition for EXPLAIN ANALYZE: the inner
statement begins with SELECT, TABLE or VALUES, or is a WITH whose CTE
structure parses, whose final statement begins with SELECT, TABLE or
VALUES, and whose CTE bodies are DML-free. -/
def analyzeSafeClaim (inner : List Char) : Bool :=
  let ni := upperL (trimL (stripLeadingComments inner))
  stvStart ni ||
  (withStart ni && !cteContainsDML inner &&
   (match extractFinalStatementAfterCTEs inner with
    | some fin => finalStartAllowed (upperL (trimL (stripLeadingComments fin)))
    | none => false))

/-- The amended acceptance condition for EXPLAIN statements: the inner
statement's first keyword is outside the seven-keyword block list, the
inner statement does not start with CALL or DO followed by a space, and
when ANALYZE is present the inner statement is analyze-safe. -/
def explainAmendedOK (s : List Char) : Bool :=
  (match getFirstKeyword (explainInner s).1 with
   | some kw => !readOnlyBlockedKeywords.contains kw
   | none => true) &&
  (!(explainInner s).2 || analyzeSafeClaim (explainInner s).1) &&
  !startsWithL (explainInner s).1 "CALL ".data &&
  !startsWithL (explainInner s).1 "DO ".data

/-- The sixteen keywords the claim about EXPLAIN says are always
rejected as inner statements. -/
def claimExplainBlockList : List (List Char) :=
  ["CALL".data, "DO".data, "COPY".data, "TRUNCATE".data, "LOCK".data,
   "GRANT".data, "REVOKE".data, "PREPARE".data, "EXECUTE".data,
   "INSERT".data, "UPDATE".data, "DELETE".data, "CREATE".data,
   "DROP".data, "ALTER".data, "MERGE".data]

/-! ## Concrete inputs named by the claims -/

/-- A WITH statement that satisfies every condition of the claim about
WITH acceptance yet holds a second top-level statement. -/
def claim2Input : List Char := "WITH a AS (SELECT 2) SELECT 1; SELECT 3".data

/-- The connection string of the specification's obfuscation scenario. -/
def specScenario8 : List Char :=
  "postgresql://u:secretpass@h/db password=other token=abc".data

/-- A string on which the obfuscator is not idempotent: the key-value
pass leaves a replacement between a colon and an at sign, which the URI
pass then rewrites on a second application. -/
def claim9Input : List Char := "u:password=a/b @h".data

/-- The gate state reached by the over-admission trace with a limit of
one: two callers are past the slot-acquire step. -/
def gateBugState : GateSt :=
  { inFlight := 2, waiters := [], woken := [], active := [2, 1] }

/-- The tunnel state after one failed reconnection attempt with an
unlimited attempt budget: failed, with nothing scheduled. -/
def tunnelFailedState : TunSt :=
  { status := .failed, localPort := 0, reconnectAttempts := 1,
    maxAttempts := -1, shuttingDown := false, pending := false }

/-- The tunnel state right after a post-ready disconnect: reconnecting,
with the stale local port still recorded. -/
def tunnelStaleState : TunSt :=
  { status := .reconnecting, localPort := 7777, reconnectAttempts := 1,
    maxAttempts := 5, shuttingDown := false, pending := true }

/-- The tunnel state after a fresh successful connect on port 7777. -/
def tunnelConnectedState : TunSt :=
  { status := .connected, localPort := 7777, reconnectAttempts := 0,
    maxAttempts := 5, shuttingDown := false, pending := false }

/-! ## Helper lemmas -/

/-- Two lists are different when they differ on a prefix shorter than the
first list. -/
theorem append_ne_of_take {pre target : List Char} (n : Nat)
    (hn : n ≤ pre.length) (hne : pre.take n ≠ target.take n) :
    ∀ rest, pre ++ rest ≠ target := by
  intro rest h
  exact hne (by rw [← h, List.take_append_of_le_length hn])

/-- Two lists are different when they differ on a suffix shorter than the
second part of the first list. -/
theorem append_ne_of_drop_last {fix target : List Char} (n : Nat)
    (hn : n ≤ fix.length) (hne : fix.reverse.take n ≠ target.reverse.take n) :
    ∀ kw, kw ++ fix ≠ target := by
  intro kw h
  apply hne
  rw [← congrArg List.reverse h, List.reverse_append,
    List.take_append_of_le_length (by simpa using hn)]

/-- Two incomparable lists cannot both be prefixes of the same list. -/
theorem not_both_prefixes {p q n : List Char} (hp : startsWithL n p = true)
    (hq : startsWithL n q = true) (hpq : p.isPrefixOf q = false)
    (hqp : q.isPrefixOf p = false) : False := by
  unfold startsWithL at hp hq
  rcases List.prefix_or_prefix_of_prefix (List.isPrefixOf_iff_prefix.mp hp)
    (List.isPrefixOf_iff_prefix.mp hq) with h | h
  · rw [List.isPrefixOf_iff_prefix.mpr h] at hpq; exact absurd hpq (by simp)
  · rw [List.isPrefixOf_iff_prefix.mpr h] at hqp; exact absurd hqp (by simp)

/-- A normalized inner statement cannot both start with a SELECT, TABLE or
VALUES form and with a WITH form. -/
theorem stv_with_incompatible {ni : List Char} (h1 : stvStart ni = true)
    (h2 : withStart ni = true) : False := by
  unfold stvStart at h1
  unfold withStart at h2
  simp only [Bool.or_eq_true] at h1 h2
  rcases h1 with ((((h1 | h1) | h1) | h1) | h1) | h1 <;>
    rcases h2 with h2 | h2 <;>
      exact not_both_prefixes h1 h2 (by decide) (by decide)

/-- Tokenizing a text that starts with an opening parenthesis emits the
parenthesis token and then tokenizes the rest from a clean state. -/
theorem tokenizeSimple_paren_cons (cs : List Char) :
    tokenizeSimple ('(' :: cs) = ['('] :: tokenizeSimple cs := rfl

/-! ## Claim theorems -/

/-- C1.  The host key verifier shipped in src/connection/host-key-verifier.ts
has no trust-on-first-use behaviour at all: its constructor takes only the
known_hosts path (the trustOnFirstUse argument the tunnel passes is
silently dropped), and on a host absent from the file verifyHostKey
returns verified false with an UNKNOWN HOST reason instead of appending
the key and returning verified true.  This contradicts the claim, the
specification, and the repository's own unit tests, which expect the
first connect against an empty known_hosts file to be verified and
saved. -/
theorem claim1_verifier_unknown_host :
    ∀ hmacB64 : List Char → List Char → List Char,
      (verifyHostKey hmacB64 (loadKnownHosts "".data) "unknown.example.com".data
          22 "ssh-ed25519".data "dGVzdC1ob3N0LWtleQ==".data).verified = false ∧
      startsWithL
        (verifyHostKey hmacB64 (loadKnownHosts "".data) "unknown.example.com".data
          22 "ssh-ed25519".data "dGVzdC1ob3N0LWtleQ==".data).reason
        "UNKNOWN HOST".data = true :=
  fun _ => ⟨rfl, rfl⟩

/-- C4 counterexample.  An envelope returned by executeQuery through the
direct read-only path (the statement SHOW ALL is not cursor-eligible)
reports truncated false even though the driver produced three usable rows
against a row cap of one, so truncated is not equivalent to the driver
producing more than maxRows rows. -/
theorem claim4_counterexample :
    (executeReadOnlyQuery "SHOW ALL".data (DriverResult.mk [1, 2, 3] 3)
        ([1, 2, 3] : List Nat) 1).truncated = false ∧
    1 < (DriverResult.mk ([1, 2, 3] : List Nat) 3).rows.length := by
  exact ⟨rfl, by decide⟩

/-- C4 amended.  For envelopes produced by the cursor-limited path, which
fetches maxRows plus one rows, truncated is true exactly when the
statement could produce more than maxRows rows, and a truncated envelope
carries exactly maxRows rows and reports maxRows as its rowCount. -/
theorem claim4_cursor_truncation :
    ∀ (avail : List Nat) (maxRows : Nat),
      ((executeQueryWithLimit avail maxRows).truncated = true ↔
        maxRows < avail.length) ∧
      (maxRows < avail.length →
        (executeQueryWithLimit avail maxRows).rows.length = maxRows ∧
        (executeQueryWithLimit avail maxRows).rowCount = maxRows) := by
  intro avail maxRows
  unfold executeQueryWithLimit
  simp only [List.length_take, decide_eq_true_eq]
  constructor
  · constructor
    · intro h; omega
    · intro h
      have : maxRows < min (maxRows + 1) avail.length := by omega
      simpa using this
  · intro h
    have hlt : maxRows < min (maxRows + 1) avail.length := by omega
    simp only [if_pos hlt, List.length_take]
    omega

/-- C9 counterexample.  The credential obfuscator is not idempotent: on
the input u colon password equals a slash b space at h, the first
application rewrites the password value, and the second application lets
the connection-URI pass consume the replaced span because the slash that
blocked it is gone. -/
theorem claim9_counterexample :
    obfuscateConnectionString (obfuscateConnectionString claim9Input) ≠
      obfuscateConnectionString claim9Input := by decide

/-- C9 amended.  Each substitution output of the obfuscator is a fixed
point of the whole obfuscator, and the obfuscator is idempotent on the
specification's own scenario string; full idempotence fails only when a
key-value replacement comes to lie between a colon and an at sign, where
the URI pass rewrites it on a second application (see the
counterexample). -/
theorem claim9_amended :
    obfuscateConnectionString (obfuscateConnectionString specScenario8) =
      obfuscateConnectionString specScenario8 ∧
    obfuscateConnectionString "x:****@y".data = "x:****@y".data ∧
    obfuscateConnectionString "password=****".data = "password=****".data ∧
    obfuscateConnectionString "privateKey=****".data = "privateKey=****".data ∧
    obfuscateConnectionString "passphrase=****".data = "passphrase=****".data ∧
    obfuscateConnectionString "secret=****".data = "secret=****".data ∧
    obfuscateConnectionString "token=****".data = "token=****".data ∧
    obfuscateConnectionString "apiKey=****".data = "apiKey=****".data ∧
    obfuscateConnectionString "authorization=****".data =
      "authorization=****".data := by
  refine ⟨by decide, ?_, ?_, ?_, ?_, ?_, ?_, ?_, ?_⟩ <;> decide

/-- C10.  getFirstKeyword skips any leading token that does not begin with
a letter or underscore, in particular a leading opening parenthesis, so a
fully parenthesised SELECT is classified by its inner keyword: it passes
the read-only validator and is judged cursor-eligible by the connection
manager. -/
theorem claim10_first_keyword :
    (∀ sql : List Char, getFirstKeyword ('(' :: sql) = getFirstKeyword sql) ∧
    validateReadOnlyStatement "(SELECT 1)".data = Except.ok () ∧
    shouldUseCursorLimiting "(SELECT 1)".data = true ∧
    getFirstKeyword "(SELECT 1)".data = some "SELECT".data := by
  refine ⟨?_, by rfl, by decide, by decide⟩
  intro sql
  unfold getFirstKeyword
  rw [tokenizeSimple_paren_cons, List.find?_cons_of_neg _ (by decide)]

/-- C5.  The query concurrency gate can admit more callers past the
slot-acquire step than maxConcurrentQueries: with a limit of one, caller
zero acquires and releases while caller one waits; releasing wakes caller
one but the woken continuation increments the counter only when it later
runs, so a fresh caller two takes the fast path in between, and once
caller one resumes, two queries are in flight past the slot-acquire
step.  Every step of the trace is a step the source performs at a
suspension point of the event loop. -/
theorem claim5_gate_overflow :
    ∃ s : GateSt, GateReach 1 s ∧ 1 < s.active.length := by
  refine ⟨gateBugState, ?_, by decide⟩
  have h1 : GateStep 1 gateInit
      { inFlight := 1, waiters := [], woken := [], active := [0] } :=
    GateStep.fastAcquire gateInit 0 (by decide) (by refine ⟨?_, ?_, ?_⟩ <;> simp [gateInit])
  have h2 : GateStep 1 { inFlight := 1, waiters := [], woken := [], active := [0] }
      { inFlight := 1, waiters := [1], woken := [], active := [0] } :=
    GateStep.enqueue _ 1 (by decide) (by refine ⟨?_, ?_, ?_⟩ <;> simp)
  have h3 : GateStep 1 { inFlight := 1, waiters := [1], woken := [], active := [0] }
      { inFlight := 0, waiters := [], woken := [1], active := [] } :=
    GateStep.releaseWake _ 0 1 [] (by simp) rfl
  have h4 : GateStep 1 { inFlight := 0, waiters := [], woken := [1], active := [] }
      { inFlight := 1, waiters := [], woken := [1], active := [2] } :=
    GateStep.fastAcquire _ 2 (by decide) (by refine ⟨?_, ?_, ?_⟩ <;> simp)
  have h5 : GateStep 1 { inFlight := 1, waiters := [], woken := [1], active := [2] }
      gateBugState :=
    GateStep.resume _ 1 [] rfl
  exact GateReach.step (GateReach.step (GateReach.step (GateReach.step
    (GateReach.step GateReach.init h1) h2) h3) h4) h5

/-- C7.  With maxReconnectAttempts set to minus one (unlimited), the
tunnel manager gives up after a single failed reconnection attempt: the
connect error handler sees status connecting and moves the state to
failed, the catch in scheduleReconnect only logs, and nothing schedules
another attempt, so the reachable state below is failed after one
attempt and no step of the machine re-enters connecting or reconnecting
(only an explicit close still moves it, to disconnected).  The claim's
indefinite retry loop, and the failed event after exhaustion only, do
not match the code. -/
theorem claim7_reconnect_gives_up :
    TunReach (-1) tunnelFailedState ∧
    tunnelFailedState.reconnectAttempts = 1 ∧
    tunnelStuck tunnelFailedState := by
  refine ⟨?_, rfl, ?_⟩
  · have h1 : TunStep (tunnelInit (-1))
        { status := .connecting, localPort := 0, reconnectAttempts := 0,
          maxAttempts := -1, shuttingDown := false, pending := false } :=
      TunStep.startConnect _ rfl rfl
    have h2 : TunStep
        { status := .connecting, localPort := 0, reconnectAttempts := 0,
          maxAttempts := -1, shuttingDown := false, pending := false }
        { status := .connected, localPort := 7777, reconnectAttempts := 0,
          maxAttempts := -1, shuttingDown := false, pending := false } :=
      TunStep.connectReady _ 7777 rfl (by decide)
    have h3 : TunStep
        { status := .connected, localPort := 7777, reconnectAttempts := 0,
          maxAttempts := -1, shuttingDown := false, pending := false }
        { status := .reconnecting, localPort := 7777, reconnectAttempts := 1,
          maxAttempts := -1, shuttingDown := false, pending := true } :=
      TunStep.disconnectSchedule _ rfl rfl (by decide)
    have h4 : TunStep
        { status := .reconnecting, localPort := 7777, reconnectAttempts := 1,
          maxAttempts := -1, shuttingDown := false, pending := true }
        { status := .connecting, localPort := 0, reconnectAttempts := 1,
          maxAttempts := -1, shuttingDown := false, pending := false } :=
      TunStep.attemptStart _ rfl rfl
    have h5 : TunStep
        { status := .connecting, localPort := 0, reconnectAttempts := 1,
          maxAttempts := -1, shuttingDown := false, pending := false }
        tunnelFailedState :=
      TunStep.connectFail _ rfl
    exact TunReach.step (TunReach.step (TunReach.step (TunReach.step
      (TunReach.step TunReach.init h1) h2) h3) h4) h5
  · intro s' hstep
    cases hstep with
    | startConnect h hp => exact absurd h (by decide)
    | connectReady p h hp => exact absurd h (by decide)
    | connectFail h => exact absurd h (by decide)
    | disconnectExhausted h hsd hmax => exact absurd h (by decide)
    | disconnectSchedule h hsd hmax => exact absurd h (by decide)
    | attemptStart h hsd => exact absurd h (by decide)
    | close => exact ⟨by decide, by decide⟩

/-- C8 counterexample.  Right after a post-ready disconnect the manager is
reconnecting while getState still reports the stale local port: cleanup
only clears the port when the scheduled attempt later runs, so a
reachable state has a non-null localPort with a status other than
connected, refuting the claimed equivalence. -/
theorem claim8_counterexample :
    TunReach 5 tunnelStaleState ∧
    tunnelStaleState.status ≠ TStatus.connected ∧
    getStateLocalPort tunnelStaleState ≠ none := by
  refine ⟨?_, by decide, by decide⟩
  have h1 : TunStep (tunnelInit 5)
      { status := .connecting, localPort := 0, reconnectAttempts := 0,
        maxAttempts := 5, shuttingDown := false, pending := false } :=
    TunStep.startConnect _ rfl rfl
  have h2 : TunStep
      { status := .connecting, localPort := 0, reconnectAttempts := 0,
        maxAttempts := 5, shuttingDown := false, pending := false }
      tunnelConnectedState :=
    TunStep.connectReady _ 7777 rfl (by decide)
  have h3 : TunStep tunnelConnectedState tunnelStaleState :=
    TunStep.disconnectSchedule _ rfl rfl (by decide)
  exact TunReach.step (TunReach.step (TunReach.step TunReach.init h1) h2) h3

/-- C8 amended.  The forward half of the claimed invariant holds: in
every reachable tunnel state whose status is connected, getState reports
a non-null localPort, because the only transition into connected records
the nonzero port of the freshly bound listener.  The converse half is
refuted by the counterexample: a stale port is still reported while
disconnected or reconnecting, until the next attempt's cleanup runs. -/
theorem claim8_connected_port (s : TunSt) (m : Int) (hr : TunReach m s)
    (hc : s.status = TStatus.connected) : getStateLocalPort s ≠ none := by
  induction hr with
  | init => simp [tunnelInit] at hc
  | step _ hstep _ =>
    cases hstep with
    | startConnect h hp => exact absurd hc (by simp)
    | connectReady p h hp => simp [getStateLocalPort, hp]
    | connectFail h => exact absurd hc (by simp)
    | disconnectExhausted h hsd hmax => exact absurd hc (by simp)
    | disconnectSchedule h hsd hmax => exact absurd hc (by simp)
    | attemptStart h hsd => exact absurd hc (by simp)
    | close => exact absurd hc (by simp)

/-- C8 witness: the amended theorem applied to the concrete reachable
connected state on port 7777. -/
theorem claim8_witness :
    getStateLocalPort tunnelConnectedState ≠ none :=
  claim8_connected_port tunnelConnectedState 5
    (TunReach.step (TunReach.step TunReach.init (TunStep.startConnect _ rfl rfl))
      (TunStep.connectReady _ 7777 rfl (by decide)))
    rfl


/-- validateWithStatement computes exactly the claim-side acceptance
condition for WITH statements. -/
theorem validateWith_eq_claim (s : List Char) :
    validateWithStatement s = withClaimOK s := by
  unfold validateWithStatement withClaimOK
  cases hc : cteContainsDML s with
  | true => simp
  | false =>
    simp only [Bool.not_false, Bool.true_and]
    cases he : extractFinalStatementAfterCTEs s with
    | none => simp
    | some fin =>
      simp only []
      cases hfe : fin.isEmpty with
      | true =>
        have hnil : fin = [] := by simpa using hfe
        subst hnil
        simp
        decide
      | false =>
        simp only [Bool.false_eq_true, if_false]
        cases hfa : finalStartAllowed (upperL (trimL (stripLeadingComments fin))) with
        | false => simp
        | true =>
          simp only [Bool.not_true, Bool.false_eq_true, if_false, Bool.true_and]
          cases hsel : startsWithL (upperL (trimL (stripLeadingComments fin))) "SELECT".data with
          | false => simp
          | true =>
            cases containsSelectInto fin <;> simp

/-- The ANALYZE phase of validateExplainStatement succeeds exactly on the
claim-side analyze-safe inner statements. -/

theorem explainAnalyze_iff_claim (inner : List Char) :
    explainAnalyzeCheck inner = Except.ok () ↔ analyzeSafeClaim inner = true := by
  unfold explainAnalyzeCheck analyzeSafeClaim
  cases hstv : stvStart (upperL (trimL (stripLeadingComments inner))) with
  | true =>
    cases hw : withStart (upperL (trimL (stripLeadingComments inner))) with
    | true => exact (stv_with_incompatible hstv hw).elim
    | false => simp [hstv, hw]
  | false =>
    cases hw : withStart (upperL (trimL (stripLeadingComments inner))) with
    | false => simp [hstv, hw]
    | true =>
      simp only [hstv, hw, Bool.or_true, Bool.not_true, Bool.false_eq_true,
        if_false, Bool.false_or, Bool.true_and]
      cases he : extractFinalStatementAfterCTEs inner with
      | none => simp
      | some fin =>
        show explainFinalCheck inner fin = Except.ok () ↔ _
        unfold explainFinalCheck
        cases hfa : finalStartAllowed (upperL (trimL (stripLeadingComments fin))) with
        | false => simp [hfa]
        | true =>
          cases hdml : cteContainsDML inner with
          | true => simp [hfa, hdml]
          | false => simp [hfa, hdml]

theorem explainAfter_iff_claim (inner : List Char) (hasA : Bool) :
    explainAfterKeywordCheck inner hasA = Except.ok () ↔
      ((!hasA || analyzeSafeClaim inner) &&
       !startsWithL inner "CALL ".data && !startsWithL inner "DO ".data) = true := by
  unfold explainAfterKeywordCheck explainCallDoCheck
  cases hasA with
  | false =>
    cases h1 : startsWithL inner "CALL ".data <;>
      cases h2 : startsWithL inner "DO ".data <;> simp [h1, h2]
  | true =>
    simp only [if_true]
    cases hac : explainAnalyzeCheck inner with
    | error e =>
      have hs : analyzeSafeClaim inner = false := by
        cases hx : analyzeSafeClaim inner with
        | false => rfl
        | true =>
          have := (explainAnalyze_iff_claim inner).mpr hx
          rw [hac] at this; exact absurd this (by simp)
      simp [hs]
    | ok u =>
      cases u
      have hs : analyzeSafeClaim inner = true := by
        rw [← explainAnalyze_iff_claim, hac]
      cases h1 : startsWithL inner "CALL ".data <;>
        cases h2 : startsWithL inner "DO ".data <;> simp [hs, h1, h2]

theorem validateExplain_iff_amended (s : List Char) :
    validateExplainStatement s = Except.ok () ↔ explainAmendedOK s = true := by
  unfold validateExplainStatement explainAmendedOK
  cases hkw : getFirstKeyword (explainInner s).1 with
  | none =>
    simp only [Bool.true_and, ← Bool.and_assoc]
    exact explainAfter_iff_claim _ _
  | some kw =>
    cases hbl : readOnlyBlockedKeywords.contains kw with
    | true => simp only [hbl, if_true, Bool.not_true, Bool.false_and, Bool.and_false]; simp
    | false =>
      simp only [hbl, Bool.false_eq_true, if_false, Bool.not_false, Bool.true_and,
        ← Bool.and_assoc]
      exact explainAfter_iff_claim _ _


/-- C2 counterexample.  A WITH statement that meets every condition of the
claim (DML-free CTE bodies, a final statement beginning with SELECT, no
INTO at depth zero) is still rejected, because it holds a second
top-level statement and validateReadOnly checks the multiple-statement
rule first; the claimed equivalence omits that precondition. -/
theorem claim2_counterexample :
    getFirstKeyword (stripLeadingComments claim2Input) = some "WITH".data ∧
    withClaimOK (stripLeadingComments claim2Input) = true ∧
    validateReadOnlyStatement claim2Input = Except.error msgMulti := by
  refine ⟨by decide, by decide, rfl⟩

/-- C2 amended.  For a single-statement SQL text whose first keyword is
WITH, validateReadOnly accepts exactly when no CTE body holds an
INSERT, UPDATE, DELETE or MERGE token (outside strings, comments and
dollar quotes), the final statement after the last top-level CTE
parenthesis begins with SELECT, TABLE or VALUES, and a final SELECT
holds no INTO at depth zero. -/
theorem claim2_with_acceptance : ∀ sql : List Char,
    containsMultipleStatements sql = false →
    getFirstKeyword (stripLeadingComments sql) = some "WITH".data →
    (validateReadOnlyStatement sql = Except.ok () ↔
     withClaimOK (stripLeadingComments sql) = true) := by
  intro sql hm hk
  unfold validateReadOnlyStatement dispatchReadOnly
  simp +decide only [hm, hk, Bool.false_eq_true, if_false, validateWith_eq_claim]
  cases withClaimOK (stripLeadingComments sql) <;> simp_all

/-- C2 witness: the amended theorem applied to a concrete accepted WITH
statement. -/
theorem claim2_witness :
    validateReadOnlyStatement "WITH a AS (SELECT 1) SELECT 2".data = Except.ok () :=
  (claim2_with_acceptance "WITH a AS (SELECT 1) SELECT 2".data
    (by decide) (by decide)).mpr (by decide)

/-- C3 counterexample.  EXPLAIN DELETE FROM t is accepted by
validateReadOnly although the inner statement's first keyword DELETE is
in the sixteen-keyword block list the claim states; the code only blocks
the seven keywords of READ_ONLY_BLOCKED_KEYWORDS (and CALL and DO by
prefix), and its own test suite asserts that EXPLAIN of DML without
ANALYZE is allowed. -/
theorem claim3_counterexample :
    validateReadOnlyStatement "EXPLAIN DELETE FROM t".data = Except.ok () ∧
    getFirstKeyword
      (explainInner (stripLeadingComments "EXPLAIN DELETE FROM t".data)).1 =
      some "DELETE".data ∧
    "DELETE".data ∈ claimExplainBlockList := by
  refine ⟨rfl, by decide, by decide⟩

/-- C3 amended.  For a single-statement SQL text whose first keyword is
EXPLAIN, validateReadOnly accepts exactly when the inner statement's
first keyword is outside the seven-keyword block list COPY, TRUNCATE,
LOCK, GRANT, REVOKE, PREPARE, EXECUTE, the inner statement does not
start with CALL or DO followed by a space, and, when ANALYZE is present,
the inner statement begins with SELECT, TABLE or VALUES or is a WITH
whose CTEs are DML-free and whose final statement begins with SELECT,
TABLE or VALUES.  In particular EXPLAIN without ANALYZE of
INSERT, UPDATE, DELETE, CREATE, DROP, ALTER or MERGE is accepted. -/
theorem claim3_explain_acceptance : ∀ sql : List Char,
    containsMultipleStatements sql = false →
    getFirstKeyword (stripLeadingComments sql) = some "EXPLAIN".data →
    (validateReadOnlyStatement sql = Except.ok () ↔
     explainAmendedOK (stripLeadingComments sql) = true) := by
  intro sql hm hk
  unfold validateReadOnlyStatement dispatchReadOnly
  simp +decide only [hm, hk, Bool.false_eq_true, if_false, if_true]
  exact validateExplain_iff_amended _

/-- C3 witness: the amended theorem applied to a concrete accepted
EXPLAIN ANALYZE statement. -/
theorem claim3_witness :
    validateReadOnlyStatement "EXPLAIN ANALYZE SELECT 1".data = Except.ok () :=
  (claim3_explain_acceptance "EXPLAIN ANALYZE SELECT 1".data
    (by decide) (by decide)).mpr (by decide)


/-- The blocked-keyword message never equals the multiple-statement
message, whatever the keyword: their five-character suffixes differ. -/
theorem blockedMsg_ne (kw : List Char) :
    (String.mk kw ++ " statements are not allowed in read-only mode.") ≠ msgMulti := by
  intro h
  have hd := congrArg String.data h
  rw [String.data_append] at hd
  exact append_ne_of_drop_last 5 (by decide) (by decide) _ hd

/-- The EXPLAIN blocked-keyword message never equals the
multiple-statement message: their first characters differ. -/
theorem explainBlockedMsg_ne (kw : List Char) :
    ("EXPLAIN of " ++ String.mk kw ++ " not allowed in read-only mode.") ≠ msgMulti := by
  intro h
  have hd := congrArg String.data h
  rw [String.data_append, String.data_append, List.append_assoc] at hd
  exact append_ne_of_take 1 (by decide) (by decide) _ hd

/-- The EXPLAIN ANALYZE final-statement message never equals the
multiple-statement message: their first characters differ. -/
theorem foundMsg_ne (d : List Char) :
    (msgFoundHead ++ String.mk d ++ "...") ≠ msgMulti := by
  intro h
  have hd := congrArg String.data h
  rw [String.data_append, String.data_append, List.append_assoc] at hd
  exact append_ne_of_take 1 (by decide) (by decide) _ hd

/-- The fallthrough message never equals the multiple-statement message:
their first characters differ. -/
theorem fallthroughMsg_ne (d : List Char) :
    (msgFallthroughHead ++ String.mk d ++ "...") ≠ msgMulti := by
  intro h
  have hd := congrArg String.data h
  rw [String.data_append, String.data_append, List.append_assoc] at hd
  exact append_ne_of_take 1 (by decide) (by decide) _ hd

/-- The WITH final-statement phase of the ANALYZE check never raises the
multiple-statement message. -/
theorem explainFinal_ne_multi (inner fin : List Char) :
    explainFinalCheck inner fin ≠ Except.error msgMulti := by
  unfold explainFinalCheck
  cases hc : finalStartAllowed (upperL (trimL (stripLeadingComments fin))) with
  | false =>
    simp only [hc, Bool.not_false, if_true]
    intro h; exact foundMsg_ne _ (Except.error.inj h)
  | true =>
    simp only [hc, Bool.not_true, Bool.false_eq_true, if_false]
    cases hd : cteContainsDML inner with
    | true =>
      simp only [hd, if_true]
      intro h; exact absurd (Except.error.inj h) (by decide)
    | false => simp only [hd, Bool.false_eq_true, if_false]; simp

/-- The ANALYZE phase never raises the multiple-statement message. -/
theorem explainAnalyze_ne_multi (inner : List Char) :
    explainAnalyzeCheck inner ≠ Except.error msgMulti := by
  unfold explainAnalyzeCheck
  cases ha : (stvStart (upperL (trimL (stripLeadingComments inner))) ||
      withStart (upperL (trimL (stripLeadingComments inner)))) with
  | false =>
    simp only [ha, Bool.not_false, if_true]
    intro h; exact absurd (Except.error.inj h) (by decide)
  | true =>
    simp only [ha, Bool.not_true, Bool.false_eq_true, if_false]
    cases hb : withStart (upperL (trimL (stripLeadingComments inner))) with
    | false => simp only [hb, Bool.false_eq_true, if_false]; simp
    | true =>
      simp only [hb, if_true]
      cases he : extractFinalStatementAfterCTEs inner with
      | none => intro h; exact absurd (Except.error.inj h) (by decide)
      | some fin => exact explainFinal_ne_multi inner fin

/-- The CALL and DO prefix phase never raises the multiple-statement
message. -/
theorem explainCallDo_ne_multi (inner : List Char) :
    explainCallDoCheck inner ≠ Except.error msgMulti := by
  unfold explainCallDoCheck
  split_ifs
  · intro h; exact absurd (Except.error.inj h) (by decide)
  · intro h; exact absurd (Except.error.inj h) (by decide)
  · simp

/-- The phases after the blocked-keyword check never raise the
multiple-statement message. -/
theorem explainAfter_ne_multi (inner : List Char) (hasA : Bool) :
    explainAfterKeywordCheck inner hasA ≠ Except.error msgMulti := by
  unfold explainAfterKeywordCheck
  cases hasA with
  | false => exact explainCallDo_ne_multi inner
  | true =>
    simp only [if_true]
    cases hac : explainAnalyzeCheck inner with
    | error e =>
      show Except.error e ≠ Except.error msgMulti
      have := explainAnalyze_ne_multi inner
      rw [hac] at this
      exact this
    | ok u => exact explainCallDo_ne_multi inner

/-- validateExplainStatement never raises the multiple-statement
message. -/
theorem validateExplain_ne_multi (s : List Char) :
    validateExplainStatement s ≠ Except.error msgMulti := by
  unfold validateExplainStatement
  cases hkw : getFirstKeyword (explainInner s).1 with
  | none => exact explainAfter_ne_multi _ _
  | some kw =>
    cases hbl : readOnlyBlockedKeywords.contains kw with
    | true =>
      simp only [hbl, if_true]
      intro h
      exact explainBlockedMsg_ne kw (Except.error.inj h)
    | false =>
      simp only [hbl, Bool.false_eq_true, if_false]
      exact explainAfter_ne_multi _ _

/-- The keyword dispatch of validateReadOnlyStatement never raises the
multiple-statement message, whatever error it picks. -/
theorem dispatch_ne_multi (st nm : List Char) :
    dispatchReadOnly st nm ≠ Except.error msgMulti := by
  unfold dispatchReadOnly
  cases hkw : getFirstKeyword st with
  | none => intro h; exact absurd (Except.error.inj h) (by decide)
  | some kw =>
    cases hbl : readOnlyBlockedKeywords.contains kw with
    | true =>
      simp only [hbl, if_true]
      intro h; exact blockedMsg_ne kw (Except.error.inj h)
    | false =>
      simp only [hbl, Bool.false_eq_true, if_false]
      by_cases h1 : kw = "CALL".data
      · rw [if_pos h1]; intro h; exact absurd (Except.error.inj h) (by decide)
      · rw [if_neg h1]
        by_cases h2 : kw = "DO".data
        · rw [if_pos h2]; intro h; exact absurd (Except.error.inj h) (by decide)
        · rw [if_neg h2]
          by_cases h3 : kw = "SELECT".data
          · rw [if_pos h3]
            cases hinto : containsSelectInto st with
            | true =>
              simp only [hinto, if_true]
              intro h; exact absurd (Except.error.inj h) (by decide)
            | false => simp only [hinto, Bool.false_eq_true, if_false]; simp
          · rw [if_neg h3]
            by_cases h4 : kw = "EXPLAIN".data
            · rw [if_pos h4]; exact validateExplain_ne_multi st
            · rw [if_neg h4]
              by_cases h5 : kw = "SHOW".data
              · rw [if_pos h5]; simp
              · rw [if_neg h5]
                by_cases h6 : kw = "VALUES".data
                · rw [if_pos h6]; simp
                · rw [if_neg h6]
                  by_cases h7 : kw = "TABLE".data
                  · rw [if_pos h7]; simp
                  · rw [if_neg h7]
                    by_cases h8 : kw = "WITH".data
                    · rw [if_pos h8]
                      cases hw : validateWithStatement st with
                      | true => simp only [hw, if_true]; simp
                      | false =>
                        simp only [hw, Bool.false_eq_true, if_false]
                        intro h; exact absurd (Except.error.inj h) (by decide)
                    · rw [if_neg h8]
                      intro h; exact fallthroughMsg_ne _ (Except.error.inj h)


/-- C6 amended.  validateReadOnly raises the multiple-statement error
exactly when the text holds two or more top-level semicolons (outside
quotes, dollar quotes and comments), or exactly one whose following text
is still nonempty after stripping leading comments and trimming - where
the comment stripper may close a block comment with a star-slash that
overlaps its opener.  No other code path produces this error message. -/
theorem claim6_multi_statement : ∀ sql : List Char,
    validateReadOnlyStatement sql = Except.error msgMulti ↔
    (2 ≤ (semiTails sql).length ∨
     ∃ t, semiTails sql = [t] ∧
       (trimL (stripLeadingComments t)).isEmpty = false) := by
  intro sql
  constructor
  · intro h
    cases hm : containsMultipleStatements sql with
    | false =>
      unfold validateReadOnlyStatement at h
      simp only [hm, Bool.false_eq_true, if_false] at h
      exact absurd h (dispatch_ne_multi _ _)
    | true =>
      unfold containsMultipleStatements at hm
      cases hts : semiTails sql with
      | nil => rw [hts] at hm; simp at hm
      | cons t rest =>
        cases rest with
        | nil =>
          right
          rw [hts] at hm
          exact ⟨t, rfl, by simpa using hm⟩
        | cons t2 r2 => left; simp
  · intro h
    have hm : containsMultipleStatements sql = true := by
      unfold containsMultipleStatements
      rcases h with h2 | ⟨t, ht, hne⟩
      · cases hts : semiTails sql with
        | nil => rw [hts] at h2; simp at h2
        | cons a rest =>
          cases rest with
          | nil => rw [hts] at h2; simp at h2
          | cons b r => rfl
      · rw [ht]; simpa using hne
    unfold validateReadOnlyStatement
    simp [hm]


/-- C6 counterexample.  On the text SELECT 1 semicolon slash-star-slash x,
validateReadOnly raises the multiple-statement error although every
character after the single top-level semicolon is whitespace or inside a
comment under standard comment parsing: the stripper closes the block
comment with the star-slash that overlaps its opener and then sees the x.
So the claimed equivalence, read with proper comment parsing, fails. -/
theorem claim6_counterexample :
    validateReadOnlyStatement "SELECT 1;/*/x".data = Except.error msgMulti ∧
    (semiTails "SELECT 1;/*/x".data).any visibleExists = false := by
  exact ⟨rfl, by decide⟩

end PgMcp
